import Mathlib

/-!
# Verification of the laundry-request pricing, validation and submission logic

Shallow embedding of the order pricing engine, the validation/sanitization
rule set, the submission workflow, the admin batch status update and the CSV
export of the RSA-v4 repository, together with proofs settling the frozen
claims about them.

Conventions of the embedding:

* JavaScript machine numbers are modelled as exact rationals (`ℚ`), with an
  explicit `nan` constructor where the code can observe `NaN` (`JsNumber`).
* Strings are Lean `String`s; the JS string operations used by the code
  (`trim`, `toLowerCase`, `replace` with the concrete regexes appearing in
  the source) are defined on the underlying character list.
* Asynchronous store writes are modelled by an explicit store-behaviour
  record (the outcome each write would have) and the list of write events a
  run issues, in issue order.  `Promise.all` rejects with its first
  rejection; in the sequential model this is the first failing write in
  list order.
-/

namespace RSA

/- Rational arithmetic must evaluate on concrete scenario data (witnesses
and counterexamples are checked by computation); Batteries seals these
definitions against unfolding, which only hinders that evaluation. -/
attribute [local semireducible] Rat.add Rat.mul Rat.sub Rat.inv Rat.ofScientific

/-- A JavaScript `number`: either `NaN` or an exact value (floats are
modelled as exact rationals). -/
inductive JsNumber where
  | nan
  | val (q : ℚ)
deriving DecidableEq

/-- `Number(x || 0)` applied to an optional `number` field `x` of a record:
a missing key (`undefined`), `NaN` and `0` are all falsy, so they yield `0`;
any other number is returned unchanged. -/
def jsOrZero : Option JsNumber → ℚ
  | none => 0
  | some .nan => 0
  | some (.val q) => q

/-- A row of the `laundry_services` table (src/types/database.ts).  The two
price columns are `numeric(10,2) | null`; the numeric value the code obtains
via `Number(...)` is modelled directly as a rational. -/
structure ServiceRow where
  id : String
  name : String
  price_per_item : Option ℚ
  price_per_pound : Option ℚ
  is_active : Bool
deriving DecidableEq

/-- `Number(s.price_per_item ?? s.price_per_pound ?? '0')` from
`CustomerRequest.lineTotals`: `??` takes the first non-null operand, and
`Number('0') = 0`. -/
def resolvedPrice (s : ServiceRow) : ℚ :=
  ((s.price_per_item).orElse fun _ => s.price_per_pound).getD 0

/-- One entry of `lineTotals` in `CustomerRequest`:
`Math.max(0, Number(quantities[s.id] || 0)) * Number(ppi ?? ppp ?? '0')`. -/
def lineTotal (s : ServiceRow) (q : Option JsNumber) : ℚ :=
  max 0 (jsOrZero q) * resolvedPrice s

/-- The `lineTotals` array: one entry per catalog item (also for items with
zero quantity). -/
def lineTotals (items : List ServiceRow) (quantities : String → Option JsNumber) :
    List ℚ :=
  items.map fun s => lineTotal s (quantities s.id)

/-- `total = lineTotals.reduce((a, b) => a + b, 0)`. -/
def orderTotal (items : List ServiceRow) (quantities : String → Option JsNumber) : ℚ :=
  (lineTotals items quantities).foldl (· + ·) 0

/-- The services an order actually carries:
`items.filter((s) => Number(quantities[s.id] || 0) > 0)` — the filter used
both by the order-summary line list and by `onSubmit`'s `selected`. -/
def selectedServices (items : List ServiceRow) (quantities : String → Option JsNumber) :
    List ServiceRow :=
  items.filter fun s => decide (0 < jsOrZero (quantities s.id))

/-! ## JS string primitives (src/lib/validation.ts works on JS strings)

The JS operations the source uses — `trim`, `toLowerCase`, `replace` with
the three concrete character-class regexes, `length`, regex `test` with the
concrete patterns of `VALIDATION_PATTERNS` — are defined on the underlying
character list. -/

/-- The whitespace characters of JS `\s` that can occur in our inputs. -/
def jsWhite (c : Char) : Bool := c == ' ' || c == '\t' || c == '\n' || c == '\r'

/-- `String.prototype.trim`. -/
def trimChars (l : List Char) : List Char :=
  ((l.dropWhile jsWhite).reverse.dropWhile jsWhite).reverse

/-- `s.trim()`. -/
def jsTrim (s : String) : String := ⟨trimChars s.data⟩

/-- `s.toLowerCase()` (ASCII, which is all the code relies on). -/
def jsToLower (s : String) : String := ⟨s.data.map Char.toLower⟩

/-- Character class `[a-zA-Z\s\-'\.]` of `VALIDATION_PATTERNS.name`. -/
def nameChar (c : Char) : Bool :=
  c.isAlpha || jsWhite c || c == '-' || c == '\'' || c == '.'

/-- `VALIDATION_PATTERNS.name = /^[a-zA-Z\s\-'\.]+$/`. -/
def matchName (s : String) : Bool := !s.data.isEmpty && s.data.all nameChar

/-- Character class `[a-zA-Z0-9\s\-\.,#\/]` of `VALIDATION_PATTERNS.address`. -/
def addressChar (c : Char) : Bool :=
  c.isAlphanum || jsWhite c || c == '-' || c == '.' || c == ',' || c == '#' || c == '/'

/-- `VALIDATION_PATTERNS.address = /^[a-zA-Z0-9\s\-\.,#\/]+$/`. -/
def matchAddress (s : String) : Bool := !s.data.isEmpty && s.data.all addressChar

/-- `VALIDATION_PATTERNS.email = /^[^\s@]+@[^\s@]+\.[^\s@]+$/`: exactly one
`@`; a nonempty whitespace-free local part; a whitespace-free domain part
containing a `.` that is neither its first nor its last character (the
regex's `[^\s@]+ \. [^\s@]+` with backtracking accepts exactly that). -/
def matchEmail (s : String) : Bool :=
  match s.data.splitOn '@' with
  | [locPart, domPart] =>
    !locPart.isEmpty && locPart.all (fun c => !jsWhite c) &&
    domPart.all (fun c => !jsWhite c) &&
    (domPart.drop 1).dropLast.contains '.'
  | _ => false

/-- Consume exactly `n` decimal digits. -/
def eatDigits : Nat → List Char → Option (List Char)
  | 0, r => some r
  | n + 1, c :: r => if c.isDigit then eatDigits n r else none
  | _ + 1, [] => none

/-- Consume an optional separator `[-. ]?` (greedy, which agrees with the
regex since a separator is never a digit). -/
def eatSep (l : List Char) : List Char :=
  match l with
  | c :: r => if c == '-' || c == '.' || c == ' ' then r else l
  | [] => []

/-- `VALIDATION_PATTERNS.phoneUS =
`/^\(?([0-9]{3})\)?[-. ]?([0-9]{3})[-. ]?([0-9]{4})$/`.  Greedy matching of
each optional token is equivalent to the regex because each optional
character (`(`, `)`, separators) differs from every digit. -/
def matchPhoneUS (s : String) : Bool :=
  let l0 := s.data
  let l1 := match l0 with | '(' :: r => r | _ => l0
  match eatDigits 3 l1 with
  | none => false
  | some r1 =>
    let r2 := match r1 with | ')' :: t => t | _ => r1
    match eatDigits 3 (eatSep r2) with
    | none => false
    | some r3 =>
      match eatDigits 4 (eatSep r3) with
      | some [] => true
      | _ => false

/-- `Number(s)` on the digit values `digitsToNat "123" = 123`. -/
def digitsToNat (l : List Char) : Nat :=
  l.foldl (fun a c => 10 * a + (c.toNat - 48)) 0

/-- Unsigned decimal with optional fraction (`12`, `12.`, `.5`, `12.5`). -/
def parseUnsigned (l : List Char) : Option ℚ :=
  match l.splitOn '.' with
  | [ip] => if !ip.isEmpty && ip.all Char.isDigit then some (digitsToNat ip) else none
  | [ip, fp] =>
    if ip.all Char.isDigit && fp.all Char.isDigit && (!ip.isEmpty || !fp.isEmpty) then
      some ((digitsToNat ip : ℚ) + (digitsToNat fp : ℚ) / (10 ^ fp.length))
    else none
  | _ => none

/-- `Number(stringValue)` on a string; `none` models `NaN`.  The empty and
all-whitespace string are `0` in JS.  (Exponent and hex forms are not
modelled; no rule set under claim puts numeric bounds on such values.) -/
def jsParseNumber (s : String) : Option ℚ :=
  let l := trimChars s.data
  if l.isEmpty then some 0
  else match l with
  | '-' :: r => (parseUnsigned r).map Neg.neg
  | '+' :: r => parseUnsigned r
  | _ => parseUnsigned l

/-! ## JS calendar arithmetic (for the `pickup_date` rule)

`new Date("YYYY-MM-DD")` denotes UTC midnight of that civil date;
`new Date()` denotes the current instant.  Instants are modelled as minutes
since the Unix epoch, with an explicit fixed timezone offset `tz` (minutes
to add to UTC to obtain local time; DST transitions are not modelled).
`daysFromCivil`/`civilFromDays` are the standard exact conversions between
a civil date and its day number. -/

/-- Proleptic-Gregorian leap-year rule. -/
def isLeapYear (y : ℤ) : Bool :=
  (y.emod 4 == 0 && y.emod 100 != 0) || y.emod 400 == 0

/-- Days in a month (used by the ISO-date validity check). -/
def daysInMonth (y m : ℤ) : ℤ :=
  if m == 2 then (if isLeapYear y then 29 else 28)
  else if m == 4 || m == 6 || m == 9 || m == 11 then 30
  else 31

/-- Day number (days since 1970-01-01) of a civil date; linear in `d`, so a
day-of-month overflow normalizes forward exactly as JS `Date` does. -/
def daysFromCivil (y m d : ℤ) : ℤ :=
  let y' := if m ≤ 2 then y - 1 else y
  let era := Int.fdiv y' 400
  let yoe := y' - era * 400
  let mp := if 2 < m then m - 3 else m + 9
  let doy := Int.fdiv (153 * mp + 2) 5 + d - 1
  let doe := yoe * 365 + Int.fdiv yoe 4 - Int.fdiv yoe 100 + doy
  era * 146097 + doe - 719468

/-- Civil date `(year, month, day)` of a day number. -/
def civilFromDays (z : ℤ) : ℤ × ℤ × ℤ :=
  let z' := z + 719468
  let era := Int.fdiv z' 146097
  let doe := z' - era * 146097
  let yoe := Int.fdiv (doe - Int.fdiv doe 1460 + Int.fdiv doe 36524 - Int.fdiv doe 146096) 365
  let y := yoe + era * 400
  let doy := doe - (365 * yoe + Int.fdiv yoe 4 - Int.fdiv yoe 100)
  let mp := Int.fdiv (5 * doy + 2) 153
  let d := doy - Int.fdiv (153 * mp + 2) 5 + 1
  let m := if mp < 10 then mp + 3 else mp - 9
  (if m ≤ 2 then y + 1 else y, m, d)

def digitVal (c : Char) : ℤ := (c.toNat : ℤ) - 48

/-- `new Date(value)` for the date strings the form's `type="date"` input
produces: strict `YYYY-MM-DD`, range-checked as the JS ISO parser does;
`none` models `Invalid Date`. -/
def parseISODate (s : String) : Option (ℤ × ℤ × ℤ) :=
  match s.data with
  | [y1, y2, y3, y4, '-', m1, m2, '-', d1, d2] =>
    if y1.isDigit && y2.isDigit && y3.isDigit && y4.isDigit &&
        m1.isDigit && m2.isDigit && d1.isDigit && d2.isDigit then
      let y := 1000 * digitVal y1 + 100 * digitVal y2 + 10 * digitVal y3 + digitVal y4
      let m := 10 * digitVal m1 + digitVal m2
      let d := 10 * digitVal d1 + digitVal d2
      if 1 ≤ m && m ≤ 12 && 1 ≤ d && d ≤ daysInMonth y m then some (y, m, d)
      else none
    else none
  | _ => none

/-- The `custom` rule of `CUSTOMER_REQUEST_SCHEMA.pickup_date`:
`inputDate = new Date(value)` (UTC midnight of the civil date);
`today = new Date(); today.setHours(0,0,0,0)` (local midnight, i.e.
`now - ((now + tz) mod 1440)`); `oneYearFromNow = new Date();
oneYearFromNow.setFullYear(year + 1)` (same local month/day/time next
year).  All times in minutes. -/
def pickupDateCustom (now tz : ℤ) (value : String) : Option String :=
  match parseISODate value with
  | none => some "Please select a valid date"
  | some (y, m, d) =>
    let inputDate := 1440 * daysFromCivil y m d
    let today := now - Int.fmod (now + tz) 1440
    if inputDate < today then some "Pickup date must be today or in the future"
    else
      let localNow := now + tz
      let nowDay := Int.fdiv localNow 1440
      let tod := Int.fmod localNow 1440
      let c := civilFromDays nowDay
      let oneYearFromNow := 1440 * daysFromCivil (c.1 + 1) c.2.1 c.2.2 + tod - tz
      if oneYearFromNow < inputDate then
        some "Pickup date cannot be more than 1 year in the future"
      else none

/-! ## validateField / validateForm (src/lib/validation.ts) -/

/-- A JS value held by a record field under validation.  The record fields
every rule set under claim is applied to are strings (or absent); numbers
never reach `validateField` in this code base. -/
inductive JSValue where
  | nullV
  | undefV
  | str (s : String)
deriving DecidableEq

/-- `String(value)`. -/
def jsValToString : JSValue → String
  | .nullV => "null"
  | .undefV => "undefined"
  | .str s => s

/-- `ValidationRule`: `pattern` is the regex's `test` and `custom` the
optional callback.  `min`/`max` are absent from every rule under claim but
kept for faithfulness of `validateField`. -/
structure Rule where
  required : Bool := false
  minLength : Option Nat := none
  maxLength : Option Nat := none
  minB : Option ℚ := none
  maxB : Option ℚ := none
  pattern : Option (String → Bool) := none
  custom : Option (JSValue → Option String) := none
  message : Option String := none

def MSG_required : String := "This field is required"
def MSG_email : String := "Please enter a valid email address"
def MSG_phone : String := "Please enter a valid phone number"
def MSG_minLength (n : Nat) : String :=
  "Must be at least " ++ toString n ++ " characters long"
def MSG_maxLength (n : Nat) : String :=
  "Must be no more than " ++ toString n ++ " characters long"
def MSG_min (q : ℚ) : String := "Must be at least " ++ toString q
def MSG_max (q : ℚ) : String := "Must be no more than " ++ toString q
def MSG_pattern : String := "Please enter a valid format"

/-- `rules.minLength && stringValue.length < rules.minLength` (note the JS
truthiness: a present `minLength` of `0` is skipped). -/
def checkMinLength (r : Rule) (sv : String) : Option String :=
  match r.minLength with
  | some m => if 0 < m && sv.data.length < m then some (r.message.getD (MSG_minLength m))
              else none
  | none => none

def checkMaxLength (r : Rule) (sv : String) : Option String :=
  match r.maxLength with
  | some m => if 0 < m && m < sv.data.length then some (r.message.getD (MSG_maxLength m))
              else none
  | none => none

/-- The numeric `min`/`max` checks, entered only when `Number(stringValue)`
is not `NaN` (`rules.min !== undefined` — no truthiness here). -/
def checkNumeric (r : Rule) (sv : String) : Option String :=
  match jsParseNumber sv with
  | some x =>
    (match r.minB with
     | some m => if x < m then some (r.message.getD (MSG_min m)) else none
     | none => none)
    <|>
    (match r.maxB with
     | some m => if m < x then some (r.message.getD (MSG_max m)) else none
     | none => none)
  | none => none

def checkPattern (r : Rule) (sv : String) : Option String :=
  match r.pattern with
  | some p => if p sv then none else some (r.message.getD MSG_pattern)
  | none => none

def checkCustom (r : Rule) (v : JSValue) : Option String :=
  match r.custom with
  | some f => f v
  | none => none

/-- `validateField(value, rules)`: `none` is a valid result, `some e` the
first failing check's error (the source returns at the first failure; each
check here only inspects its own inputs, so the first-`some` chain is the
same).  The checks run on `stringValue = String(value).trim()` except
`custom`, which receives the original value. -/
def validateField (value : JSValue) (r : Rule) : Option String :=
  match value with
  | .nullV => if r.required then some (r.message.getD MSG_required) else none
  | .undefV => if r.required then some (r.message.getD MSG_required) else none
  | .str s =>
    if s = "" then (if r.required then some (r.message.getD MSG_required) else none)
    else
      let sv := jsTrim s
      (if r.required && sv == "" then some (r.message.getD MSG_required) else none)
      <|> checkMinLength r sv
      <|> checkMaxLength r sv
      <|> checkNumeric r sv
      <|> checkPattern r sv
      <|> checkCustom r value

/-- `ValidationResult`. -/
structure ValidationResult where
  isValid : Bool
  errors : List (String × String)
deriving DecidableEq

/-- `data[fieldName]` (a missing key reads as `undefined`). -/
def jsLookup (data : List (String × JSValue)) (k : String) : JSValue :=
  match data.find? (fun p => p.1 == k) with
  | some p => p.2
  | none => .undefV

/-- The loop body of `validateForm`: the `isValid` flag and the `errors`
map are built independently, exactly as in the source. -/
def validateFormGo (data : List (String × JSValue)) :
    List (String × Rule) → Bool → List (String × String) → ValidationResult
  | [], v, errs => ⟨v, errs⟩
  | (n, r) :: rest, v, errs =>
    match validateField (jsLookup data n) r with
    | some e => validateFormGo data rest false (errs ++ [(n, e)])
    | none => validateFormGo data rest v errs

/-- `validateForm(data, rules)`. -/
def validateForm (data : List (String × JSValue)) (rules : List (String × Rule)) :
    ValidationResult :=
  validateFormGo data rules true []

/-- `CUSTOMER_REQUEST_SCHEMA`, parameterized by the current instant and
timezone offset its `pickup_date.custom` closure reads from the clock. -/
def CUSTOMER_REQUEST_SCHEMA (now tz : ℤ) : List (String × Rule) :=
  [ ("customer_name",
      { required := true, minLength := some 2, maxLength := some 100,
        pattern := some matchName, message := some "Please enter your full name" }),
    ("customer_email",
      { required := true, pattern := some matchEmail, message := some MSG_email }),
    ("customer_phone",
      { required := true, pattern := some matchPhoneUS, message := some MSG_phone }),
    ("pickup_address",
      { required := true, minLength := some 10, maxLength := some 200,
        pattern := some matchAddress,
        message := some "Please enter a complete address" }),
    ("pickup_date",
      { required := true,
        custom := some fun v => pickupDateCustom now tz (jsValToString v) }),
    ("pickup_time_slot",
      { required := true, message := some "Please select a pickup time slot" }),
    ("special_instructions",
      { maxLength := some 500,
        message := some "Special instructions cannot exceed 500 characters" }) ]

/-! ## Sanitization functions (src/lib/validation.ts) -/

/-- `sanitizeString: input.trim().replace(/[<>]/g, '')`. -/
def sanitizeString (input : String) : String :=
  ⟨(trimChars input.data).filter fun c => !(c == '<' || c == '>')⟩

/-- `sanitizeEmail: email.trim().toLowerCase()`. -/
def sanitizeEmail (email : String) : String := jsToLower (jsTrim email)

/-- The characters `sanitizePhone` keeps: `[\d\-\(\)\s\+]`. -/
def phoneKeep (c : Char) : Bool :=
  c.isDigit || c == '-' || c == '(' || c == ')' || jsWhite c || c == '+'

/-- `sanitizePhone: phone.replace(/[^\d\-\(\)\s\+]/g, '')` — note: no trim. -/
def sanitizePhone (phone : String) : String := ⟨phone.data.filter phoneKeep⟩

/-- `sanitizeAddress: address.trim().replace(/[<>]/g, '')`. -/
def sanitizeAddress (address : String) : String :=
  ⟨(trimChars address.data).filter fun c => !(c == '<' || c == '>')⟩

/-- The per-key sanitizer `validateFormData` applies to string entries. -/
def sanitizeEntry : String × JSValue → String × JSValue
  | (k, .str s) =>
    (k, .str (if k == "customer_email" then sanitizeEmail s
        else if k == "customer_phone" then sanitizePhone s
        else if k == "pickup_address" then sanitizeAddress s
        else sanitizeString s))
  | e => e

structure FormDataResult where
  isValid : Bool
  errors : List (String × String)
  sanitizedData : List (String × JSValue)

/-- `validateFormData(data, schema)`: validate, then sanitize every
string-typed entry (non-strings pass through). -/
def validateFormData (data : List (String × JSValue))
    (schema : List (String × Rule)) : FormDataResult :=
  let validation := validateForm data schema
  ⟨validation.isValid, validation.errors, data.map sanitizeEntry⟩

/-! ## Submission workflow (src/pages/CustomerRequest.tsx `onSubmit`)

The form is gated by react-hook-form's `handleSubmit`, which invokes
`onSubmit` only when every registered field rule passes.  Store writes are
modelled by a `StoreBehavior` record giving the outcome each write would
have; a run yields the list of issued write events (in issue order) and the
user-visible outcome. -/

inductive TimeSlot where
  | morning
  | afternoon
  | evening
deriving DecidableEq

/-- The `pickup_time_slot` label computed in the payload. -/
def slotLabel : TimeSlot → String
  | .morning => "Morning 8-12"
  | .afternoon => "Afternoon 12-16"
  | .evening => "Evening 16-20"

/-- `FormInputs` of `CustomerRequest`; `quantities` is the
`Record<string, number>` (a missing key reads as `undefined`). -/
structure FormInputs where
  fullName : String
  email : String
  phone : String
  address : String
  pickupDate : String
  pickupTime : TimeSlot
  notes : Option String
  quantities : String → Option JsNumber

/-- The react-hook-form `register` rules of the form: `required` on
fullName/email/phone/address/pickupDate (failing exactly on the empty
string) and the email `pattern`; `pickupTime` is a select that always holds
a valid slot. -/
def formFieldErrors (d : FormInputs) : List (String × String) :=
  (if d.fullName = "" then [("fullName", "Full name is required")] else [])
  ++ (if d.email = "" then [("email", "Email is required")]
      else if !matchEmail d.email then [("email", "Enter a valid email")] else [])
  ++ (if d.phone = "" then [("phone", "Phone number is required")] else [])
  ++ (if d.address = "" then [("address", "Address is required")] else [])
  ++ (if d.pickupDate = "" then [("pickupDate", "Pickup date is required")] else [])

def pad2 (n : Nat) : String := if n < 10 then "0" ++ toString n else toString n

/-- Floor of a rational, computed on its reduced numerator/denominator. -/
def ratFloor (q : ℚ) : ℤ := q.num.fdiv q.den

/-- `x.toFixed(2)`: two-decimal rounding (half away from zero) of the exact
rational; binary-float artifacts are not modelled.  The result is only ever
carried opaquely inside payloads. -/
def toFixed2 (q : ℚ) : String :=
  let sgn := if q < 0 then "-" else ""
  let a := if q < 0 then -q else q
  let k : Nat := (ratFloor (a * 100 + 1 / 2)).toNat
  sgn ++ toString (k / 100) ++ "." ++ pad2 (k % 100)

/-- The `laundry_requests` insert payload built by `onSubmit`. -/
structure OrderPayload where
  customer_name : String
  customer_email : String
  customer_phone : String
  pickup_address : String
  pickup_date : String
  pickup_time_slot : String
  special_instructions : Option String
  status : String
  total_estimated_cost : String
deriving DecidableEq

/-- The `request_services` insert payload built per selected service. -/
structure LinePayload where
  request_id : String
  service_id : String
  quantity : ℚ
  estimated_cost : String
deriving DecidableEq

/-- The order payload: raw form fields, the mapped slot label, fixed
`'pending'` status and the snapshot `total.toFixed(2)`. -/
def mkPayload (items : List ServiceRow) (d : FormInputs) : OrderPayload :=
  { customer_name := d.fullName
    customer_email := d.email
    customer_phone := d.phone
    pickup_address := d.address
    pickup_date := d.pickupDate
    pickup_time_slot := slotLabel d.pickupTime
    special_instructions := d.notes
    status := "pending"
    total_estimated_cost := toFixed2 (orderTotal items d.quantities) }

/-- One `addRequestService` payload:
`qty = Number(data.quantities?.[s.id] || 0)`,
`estimated_cost = (qty * price).toFixed(2)`, `request_id = created.data.id`. -/
def mkLine (oid : String) (d : FormInputs) (s : ServiceRow) : LinePayload :=
  let qty := jsOrZero (d.quantities s.id)
  { request_id := oid
    service_id := s.id
    quantity := qty
    estimated_cost := toFixed2 (qty * resolvedPrice s) }

/-- A store write issued by the submission workflow. -/
inductive WriteEvent where
  | createOrder (payload : OrderPayload)
  | createLine (line : LinePayload)
deriving DecidableEq

/-- The outcome every store write would have in a given run:
`createLaundryRequest` either fails with a message or returns the created
row's id; each `addRequestService` outcome is keyed by `service_id`. -/
structure StoreBehavior where
  createResult : Except String String
  lineResult : String → Except String Unit

/-- The user-visible result of a submission attempt: blocked by field
validation, `setSubmitError(message)`, or the success toast. -/
inductive SubmitOutcome where
  | fieldRejected (errors : List (String × String))
  | failed (msg : String)
  | success
deriving DecidableEq

/-- `Promise.all` over the line inserts rejects with its first rejection;
in the sequential model of one run this is the first failing line write in
list order. -/
def firstLineError (store : StoreBehavior) (selected : List ServiceRow) :
    Option String :=
  selected.findSome? fun s =>
    match store.lineResult s.id with
    | .error e => some e
    | .ok _ => none

/-- One run of `handleSubmit(onSubmit)`: field validation; the
"at least one service" check; the `createLaundryRequest` write; on its
success, all `addRequestService` writes (issued together); errors reach
`setSubmitError` via the catch block. -/
def submitRun (items : List ServiceRow) (d : FormInputs) (store : StoreBehavior) :
    List WriteEvent × SubmitOutcome :=
  if formFieldErrors d ≠ [] then ([], .fieldRejected (formFieldErrors d))
  else
    let selected := selectedServices items d.quantities
    if selected.isEmpty then
      ([], .failed "Please select at least one service with quantity > 0.")
    else
      let payload := mkPayload items d
      match store.createResult with
      | .error e => ([.createOrder payload], .failed e)
      | .ok oid =>
        let lines := selected.map (mkLine oid d)
        (.createOrder payload :: lines.map .createLine,
          match firstLineError store selected with
          | some e => .failed e
          | none => .success)

/-! ## Batch status update (src/components/admin/RequestManagement.tsx) -/

/-- A toast shown by `RequestManagement`. -/
inductive Toast where
  | okToast (msg : String)
  | errToast (msg : String)
deriving DecidableEq

def isErrResult : Except String Unit → Bool
  | .error _ => true
  | .ok _ => false

/-- `handleBatchStatusUpdate`: one `updateRequest` write per selected id —
the promises are all created up-front and awaited with `Promise.all`
(`updateRequest` returns a result object and never throws), so every id's
write is issued whatever the other ids' outcomes are.  Returns the ids
whose writes were issued and the toast shown. -/
def handleBatchStatusUpdate (ids : List String)
    (res : String → Except String Unit) : List String × Toast :=
  let results := ids.map res
  let failed := results.filter isErrResult
  ( ids,
    if failed.length = 0 then
      .okToast ("Updated " ++ toString ids.length ++ " requests successfully")
    else
      .errToast ("Updated " ++ toString (results.length - failed.length)
        ++ " requests, " ++ toString failed.length ++ " failed") )

/-! ## CSV export (src/components/admin/RequestManagement.tsx `exportToCSV`) -/

/-- `String(field).replace(/"/g, '""')`. -/
def escChars : List Char → List Char
  | [] => []
  | c :: r => if c = '"' then '"' :: '"' :: escChars r else c :: escChars r

/-- One serialized field: `"` ++ escaped ++ `"`. -/
def serField (s : String) : List Char := '"' :: (escChars s.data ++ ['"'])

/-- `row.map(field => ...).join(',')`. -/
def serRow : List String → List Char
  | [] => []
  | [f] => serField f
  | f :: g :: rest => serField f ++ ',' :: serRow (g :: rest)

/-- `[headers, ...rows].map(...).join('\n')`. -/
def serCSV : List (List String) → List Char
  | [] => []
  | [r] => serRow r
  | r :: r2 :: rest => serRow r ++ '\n' :: serCSV (r2 :: rest)

/-- The flat fields of a `laundry_requests` row that `exportToCSV` reads.
`created_at_display` stands for `new Date(created_at).toLocaleString()`,
whose locale-dependent text is taken as a given string. -/
structure RequestRow where
  id : String
  customer_name : String
  customer_email : String
  customer_phone : String
  pickup_address : String
  pickup_date : String
  pickup_time_slot : String
  special_instructions : Option String
  status : String
  total_estimated_cost : Option String
  internal_notes : Option String
  created_at_display : String
deriving DecidableEq

/-- `String(x || dflt)` for a nullable string column (`null` and `''` are
falsy). -/
def orFalsy (o : Option String) (dflt : String) : String :=
  match o with
  | some s => if s = "" then dflt else s
  | none => dflt

def CSV_HEADERS : List String :=
  ["ID", "Customer Name", "Customer Email", "Customer Phone", "Pickup Date",
   "Pickup Time", "Pickup Address", "Status", "Total Cost",
   "Special Instructions", "Internal Notes", "Created At"]

/-- The row `exportToCSV` builds for one request, in its column order. -/
def requestFields (r : RequestRow) : List String :=
  [r.id, r.customer_name, r.customer_email, r.customer_phone, r.pickup_date,
   r.pickup_time_slot, r.pickup_address, r.status,
   orFalsy r.total_estimated_cost "0", orFalsy r.special_instructions "",
   orFalsy r.internal_notes "", r.created_at_display]

/-- `exportToCSV`: the serialized `csvContent` text (the download plumbing
around it is UI). -/
def exportToCSV (requests : List RequestRow) : String :=
  ⟨serCSV (CSV_HEADERS :: requests.map requestFields)⟩

/-- Modelled from the spec: `parseCSV`, the standard reader for this CSV
dialect (every field quoted, internal quotes doubled, fields joined by `,`,
records by `\n`), used by the round-trip property `parse(serialize(x)) ==
x`; no parser exists in the repository.  A record-reading state machine:
expecting a field's opening quote / inside a quoted field / just after a
quote inside a quoted field. -/
inductive CsvState where
  | expectField (rows : List (List String)) (cur : List String)
  | inQuoted (rows : List (List String)) (cur : List String) (acc : List Char)
  | afterQuote (rows : List (List String)) (cur : List String) (acc : List Char)

/-- One character of CSV input (`rows`, `cur`, `acc` are accumulated in
reverse). -/
def csvStep : CsvState → Char → Option CsvState
  | .expectField rows cur, c =>
    if c = '"' then some (.inQuoted rows cur []) else none
  | .inQuoted rows cur acc, c =>
    if c = '"' then some (.afterQuote rows cur acc)
    else some (.inQuoted rows cur (c :: acc))
  | .afterQuote rows cur acc, c =>
    if c = '"' then some (.inQuoted rows cur ('"' :: acc))
    else if c = ',' then some (.expectField rows (String.mk acc.reverse :: cur))
    else if c = '\n' then
      some (.expectField ((String.mk acc.reverse :: cur).reverse :: rows) [])
    else none

/-- End of input: accept exactly a complete final field (or a wholly empty
input). -/
def csvFinish : CsvState → Option (List (List String))
  | .expectField rows cur => if rows.isEmpty && cur.isEmpty then some [] else none
  | .inQuoted _ _ _ => none
  | .afterQuote rows cur acc =>
    some (((String.mk acc.reverse :: cur).reverse :: rows).reverse)

def csvRun : List Char → CsvState → Option (List (List String))
  | [], st => csvFinish st
  | c :: rest, st =>
    match csvStep st c with
    | some st' => csvRun rest st'
    | none => none

def parseCSV (s : String) : Option (List (List String)) :=
  csvRun s.data (.expectField [] [])

/-! ## Concrete scenario data used by counterexamples and witnesses -/

/-- The instant 2026-10-11T12:00Z, in minutes since the epoch. -/
def nowAnchor : ℤ := 1440 * daysFromCivil 2026 10 11 + 720

/-- Scenario B record: every field valid except `pickup_date`, which is
yesterday relative to `nowAnchor`. -/
def scenarioBData : List (String × JSValue) :=
  [ ("customer_name", .str "Alex Johnson"),
    ("customer_email", .str "alex@example.com"),
    ("customer_phone", .str "(555) 123-4567"),
    ("pickup_address", .str "123 Main Street, Springfield"),
    ("pickup_date", .str "2026-10-10"),
    ("pickup_time_slot", .str "Morning 8-12"),
    ("special_instructions", .str "") ]

/-- A three-service catalog. -/
def itemsABC : List ServiceRow :=
  [⟨"s1", "Wash", some 2, none, true⟩,
   ⟨"s2", "Dry", some 3, none, true⟩,
   ⟨"s3", "Iron", some 4, none, true⟩]

/-- A field-valid draft selecting all three services of `itemsABC`. -/
def draftABC : FormInputs :=
  { fullName := "Alex Johnson"
    email := "alex@example.com"
    phone := "(555) 123-4567"
    address := "123 Main Street, Springfield"
    pickupDate := "2026-10-20"
    pickupTime := .morning
    notes := none
    quantities := fun i =>
      if i = "s1" || i = "s2" || i = "s3" then some (.val 1) else none }

/-- A store run where the order create succeeds and exactly the second of
the three line writes fails. -/
def storePartial : StoreBehavior :=
  { createResult := .ok "order-1"
    lineResult := fun sid => if sid = "s2" then .error "boom" else .ok () }

/-- A store run where the order create itself fails with the same reason. -/
def storeCleanFail : StoreBehavior :=
  { createResult := .error "boom"
    lineResult := fun _ => .ok () }

/-- A store run where every write succeeds. -/
def storeAllOk : StoreBehavior :=
  { createResult := .ok "order-1", lineResult := fun _ => .ok () }

/-- A field-valid draft whose strings carry leading/trailing blanks, angle
brackets and upper-case email letters. -/
def draftRaw : FormInputs :=
  { fullName := " <b>Al</b> "
    email := "ALEX@Example.com"
    phone := " (555) 123-4567 "
    address := "123 Main Street, Springfield"
    pickupDate := "2026-10-20"
    pickupTime := .morning
    notes := some "note <tag>"
    quantities := fun i => if i = "s1" then some (.val 2) else none }

/-- A field-valid draft in which no service has a positive quantity. -/
def draftNoServices : FormInputs :=
  { fullName := "Alex Johnson"
    email := "alex@example.com"
    phone := "(555) 123-4567"
    address := "123 Main Street, Springfield"
    pickupDate := "2026-10-20"
    pickupTime := .morning
    notes := none
    quantities := fun _ => some (.val 0) }

/-- A request row whose special instructions contain a double quote and a
comma. -/
def requestQC : RequestRow :=
  { id := "r-1"
    customer_name := "Alex Johnson"
    customer_email := "alex@example.com"
    customer_phone := "(555) 123-4567"
    pickup_address := "123 Main Street, Springfield"
    pickup_date := "2026-10-20"
    pickup_time_slot := "Morning 8-12"
    special_instructions := some "wash \"gently\", please"
    status := "pending"
    total_estimated_cost := some "10.00"
    internal_notes := none
    created_at_display := "10/11/2026, 12:00:00 PM" }

/-- A one-rule rule set and a failing record for the `validateForm`
invariant witness. -/
def ruleSetW : List (String × Rule) :=
  [("customer_email",
    { required := true, pattern := some matchEmail, message := some MSG_email })]

def dataW : List (String × JSValue) := [("customer_email", .str "not-an-email")]

/-! ## Theorems -/

/-- `foldl (+)` over rationals is the list sum. -/
theorem foldl_add_eq_sum (l : List ℚ) (a : ℚ) : l.foldl (· + ·) a = a + l.sum := by
  induction l generalizing a with
  | nil => simp
  | cons x t ih => simp [List.foldl_cons, ih (a + x), add_assoc]

/-- A line whose quantity does not exceed zero costs nothing. -/
theorem lineTotal_of_not_pos (s : ServiceRow) (q : Option JsNumber)
    (h : ¬ 0 < jsOrZero q) : lineTotal s q = 0 := by
  have : max 0 (jsOrZero q) = 0 := max_eq_left (le_of_not_lt h)
  simp [lineTotal, this]

/-- **C1.** For every service and every quantity value `q ≥ 0` the computed
line cost is `q * resolvedPrice`; for a negative quantity, for `NaN` and for
a missing quantity the line cost is `0` (no error path exists — the function
is total); and the resolved unit price is the per-item price if present,
else the per-weight price, else `0`. -/
theorem c1_line_cost (s : ServiceRow) (q : ℚ) :
    (0 ≤ q → lineTotal s (some (.val q)) = q * resolvedPrice s)
    ∧ (q < 0 → lineTotal s (some (.val q)) = 0)
    ∧ lineTotal s (some .nan) = 0
    ∧ lineTotal s none = 0
    ∧ resolvedPrice s
        = (match s.price_per_item with
            | some p => p
            | none => match s.price_per_pound with
              | some p => p
              | none => 0) := by
  refine ⟨fun h => ?_, fun h => ?_, ?_, ?_, ?_⟩
  · simp [lineTotal, jsOrZero, max_eq_right h]
  · simp [lineTotal, jsOrZero, max_eq_left h.le]
  · simp [lineTotal, jsOrZero]
  · simp [lineTotal, jsOrZero]
  · cases h1 : s.price_per_item <;> cases h2 : s.price_per_pound <;>
      simp [resolvedPrice, h1, h2, Option.orElse]

/-- **C1 witness** (Scenario A): `Wash & Fold` at `pricePerItem = 2.50`,
quantity `4`, gives line cost `10`. -/
theorem c1_line_cost_witness :
    lineTotal ⟨"svc1", "Wash & Fold", some (5/2), none, true⟩ (some (.val 4)) = 10 := by
  have h := (c1_line_cost ⟨"svc1", "Wash & Fold", some (5/2), none, true⟩ 4).1
    (by norm_num)
  rw [h]
  norm_num [resolvedPrice, Option.orElse]

/-- **C2.** The computed order total is the sum of the line costs of exactly
the selected services (quantity `> 0`), and a service is in the selected set
iff it is a catalog item with quantity `> 0` — zero-quantity lines are
excluded from the result set of lines. -/
theorem c2_total_additivity (items : List ServiceRow)
    (quantities : String → Option JsNumber) :
    orderTotal items quantities
      = ((selectedServices items quantities).map
          fun s => lineTotal s (quantities s.id)).sum
    ∧ ∀ s, s ∈ selectedServices items quantities
        ↔ s ∈ items ∧ 0 < jsOrZero (quantities s.id) := by
  constructor
  · rw [orderTotal, foldl_add_eq_sum, zero_add]
    induction items with
    | nil => simp [lineTotals, selectedServices]
    | cons x t ih =>
      by_cases h : 0 < jsOrZero (quantities x.id)
      · simp [lineTotals, selectedServices, List.filter_cons, h] at ih ⊢
        exact ih
      · simp only [lineTotals, List.map_cons, List.sum_cons, selectedServices,
          List.filter_cons, decide_eq_true_eq, h, if_false]
        rw [lineTotal_of_not_pos x _ h, zero_add]
        exact ih
  · intro s
    simp [selectedServices, List.mem_filter]

/-- **C3.** In every run of the submission workflow, any issued line write
comes after the order-create write, which heads the trace; each line even
carries the order id the resolved create returned (so the create was issued
and resolved first); and when the create fails no line write appears in the
trace at all. -/
theorem c3_write_ordering (items : List ServiceRow) (d : FormInputs)
    (store : StoreBehavior) :
    (∀ l, WriteEvent.createLine l ∈ (submitRun items d store).1 →
      (submitRun items d store).1.head? = some (.createOrder (mkPayload items d))
        ∧ store.createResult = .ok l.request_id)
    ∧ ∀ e, store.createResult = .error e →
        ∀ l, WriteEvent.createLine l ∉ (submitRun items d store).1 := by
  unfold submitRun
  by_cases hv : formFieldErrors d = []
  · by_cases hsel : (selectedServices items d.quantities).isEmpty = true
    · simp [hv, hsel]
    · cases hc : store.createResult with
      | error e => simp [hv, hsel, hc]
      | ok oid =>
        simp only [hv, hsel, hc, ne_eq, not_true_eq_false, if_false,
          Bool.false_eq_true, List.head?_cons]
        refine ⟨?_, ?_⟩
        · intro l hl
          refine ⟨trivial, ?_⟩
          simp only [List.mem_cons, List.mem_map, reduceCtorEq, false_or,
            WriteEvent.createLine.injEq, exists_exists_and_eq_and] at hl
          obtain ⟨s, hs, rfl⟩ := hl
          simp [mkLine]
        · intro e he
          simp at he
  · simp [hv]

/-- **C3 witness**: in the all-success run on the concrete catalog and
draft, the trace's first line write follows the head order-create write and
carries the resolved order id. -/
theorem c3_write_ordering_witness :
    (submitRun itemsABC draftABC storeAllOk).1.head?
        = some (.createOrder (mkPayload itemsABC draftABC))
      ∧ storeAllOk.createResult = .ok (mkLine "order-1" draftABC
          ⟨"s1", "Wash", some 2, none, true⟩).request_id :=
  (c3_write_ordering itemsABC draftABC storeAllOk).1
    (mkLine "order-1" draftABC ⟨"s1", "Wash", some 2, none, true⟩) (by decide)

/-- **C4 counterexample.** With the order create succeeding and exactly one
of the three line writes failing (reason `"boom"`), the workflow's outcome
is the bare error `"boom"` — the very same outcome as a clean create
failure with that reason — and so is not a distinct partial-failure outcome
and carries no successful line ids. -/
theorem c4_counterexample :
    (submitRun itemsABC draftABC storePartial).2 = .failed "boom"
    ∧ (submitRun itemsABC draftABC storePartial).2
        = (submitRun itemsABC draftABC storeCleanFail).2 := by
  decide

/-- **C4 (amended).** If the create succeeds and some line write fails, the
workflow reports a plain failure carrying only the first failing line's
error message (never success), and the created order stays in the trace —
there is no rollback and no partial-failure variant with line ids. -/
theorem c4_partial_failure (items : List ServiceRow) (d : FormInputs)
    (store : StoreBehavior) (oid e : String)
    (hv : formFieldErrors d = [])
    (hc : store.createResult = .ok oid)
    (hf : firstLineError store (selectedServices items d.quantities) = some e) :
    (submitRun items d store).2 = .failed e
    ∧ (submitRun items d store).2 ≠ .success
    ∧ WriteEvent.createOrder (mkPayload items d) ∈ (submitRun items d store).1 := by
  have hsel : ¬ (selectedServices items d.quantities).isEmpty := by
    intro h
    rw [List.isEmpty_iff] at h
    rw [h] at hf
    simp [firstLineError] at hf
  unfold submitRun
  simp [hv, hsel, hc, hf]

/-- **C4 witness**: the amended statement at the concrete partial-failure
run. -/
theorem c4_partial_failure_witness :
    (submitRun itemsABC draftABC storePartial).2 = .failed "boom"
    ∧ (submitRun itemsABC draftABC storePartial).2 ≠ .success
    ∧ WriteEvent.createOrder (mkPayload itemsABC draftABC)
        ∈ (submitRun itemsABC draftABC storePartial).1 :=
  c4_partial_failure itemsABC draftABC storePartial "order-1" "boom"
    (by decide) rfl (by decide)

/-- **C5 counterexample.** In the three-order batch where #2's write fails,
the observable outcome (issued writes and toast) is identical to the run
where #3 fails instead with a different reason: the outcome aggregates only
counts — "Updated 2 requests, 1 failed" — and names no ids and no
reasons. -/
theorem c5_counterexample :
    handleBatchStatusUpdate ["r1", "r2", "r3"]
        (fun i => if i = "r2" then .error "boom" else .ok ())
      = handleBatchStatusUpdate ["r1", "r2", "r3"]
        (fun i => if i = "r3" then .error "timeout" else .ok ())
    ∧ (handleBatchStatusUpdate ["r1", "r2", "r3"]
        (fun i => if i = "r2" then .error "boom" else .ok ())).2
      = .errToast "Updated 2 requests, 1 failed" := by
  decide

/-- **C5 (amended).** One update write is issued per selected id whatever
each write's outcome (no id's failure prevents or rolls back another's
write), and the reported outcome depends only on the number of failures,
not on which ids failed or why. -/
theorem c5_batch_update (ids : List String)
    (res res2 : String → Except String Unit) :
    (handleBatchStatusUpdate ids res).1 = ids
    ∧ (((ids.map res).filter isErrResult).length
          = ((ids.map res2).filter isErrResult).length →
        handleBatchStatusUpdate ids res = handleBatchStatusUpdate ids res2) := by
  refine ⟨rfl, fun h => ?_⟩
  unfold handleBatchStatusUpdate
  simp only [List.length_map, h]

/-- **C5 witness**: the amended statement at the three-order scenario,
comparing the run where #2 fails with one where #1 fails for another
reason. -/
theorem c5_batch_update_witness :
    (handleBatchStatusUpdate ["r1", "r2", "r3"]
        (fun i => if i = "r2" then .error "boom" else .ok ())).1
      = ["r1", "r2", "r3"]
    ∧ handleBatchStatusUpdate ["r1", "r2", "r3"]
        (fun i => if i = "r2" then .error "boom" else .ok ())
      = handleBatchStatusUpdate ["r1", "r2", "r3"]
        (fun i => if i = "r1" then .error "denied" else .ok ()) :=
  ⟨(c5_batch_update ["r1", "r2", "r3"]
      (fun i => if i = "r2" then .error "boom" else .ok ())
      (fun i => if i = "r1" then .error "denied" else .ok ())).1,
   (c5_batch_update ["r1", "r2", "r3"]
      (fun i => if i = "r2" then .error "boom" else .ok ())
      (fun i => if i = "r1" then .error "denied" else .ok ())).2 (by decide)⟩

/-- **C8.** When the per-field validation passes and no service has a
positive quantity, the submission run performs no store write at all and
reports the dedicated "select at least one service" error; when field
validation fails, the run is rejected with the field errors before the
service check is reached (also with no writes). -/
theorem c8_no_services (items : List ServiceRow) (d : FormInputs)
    (store : StoreBehavior) :
    (formFieldErrors d = [] →
      (∀ s ∈ items, ¬ 0 < jsOrZero (d.quantities s.id)) →
      submitRun items d store
        = ([], .failed "Please select at least one service with quantity > 0."))
    ∧ (formFieldErrors d ≠ [] →
      submitRun items d store = ([], .fieldRejected (formFieldErrors d))) := by
  constructor
  · intro hv hq
    have hsel : selectedServices items d.quantities = [] := by
      rw [selectedServices, List.filter_eq_nil_iff]
      intro s hs
      simpa using hq s hs
    unfold submitRun
    simp [hv, hsel]
  · intro hv
    unfold submitRun
    simp [hv]

/-- **C8 witness** (Scenario C): the field-valid draft with all-zero
quantities is rejected with the dedicated error and an empty write trace. -/
theorem c8_no_services_witness :
    submitRun itemsABC draftNoServices storeAllOk
      = ([], .failed "Please select at least one service with quantity > 0.") :=
  (c8_no_services itemsABC draftNoServices storeAllOk).1 (by decide) (by decide)

/-- **C9 counterexample.** A field-valid draft whose name is
`" <b>Al</b> "` and email `"ALEX@Example.com"` is persisted raw: the
order-create write carries the untrimmed, angle-bracketed name and the
non-lower-cased email, each differing from its sanitized form — so
sanitization is not applied between validation and persistence. -/
theorem c9_counterexample :
    WriteEvent.createOrder (mkPayload itemsABC draftRaw)
        ∈ (submitRun itemsABC draftRaw storeAllOk).1
    ∧ (mkPayload itemsABC draftRaw).customer_name = " <b>Al</b> "
    ∧ sanitizeString " <b>Al</b> " ≠ " <b>Al</b> "
    ∧ (mkPayload itemsABC draftRaw).customer_email = "ALEX@Example.com"
    ∧ sanitizeEmail "ALEX@Example.com" ≠ "ALEX@Example.com"
    ∧ (mkPayload itemsABC draftRaw).customer_phone = " (555) 123-4567 " := by
  decide

/-- **C9 (amended).** The sanitization helpers behave as described on their
own — `sanitizeString` trims and strips every angle bracket,
`sanitizeEmail` lower-cases the trimmed email, `sanitizePhone` keeps
exactly `+`, digits, parentheses, hyphens and whitespace but does not
trim — yet the submission path persists the raw draft fields without
applying any of them. -/
theorem c9_sanitization (items : List ServiceRow) (d : FormInputs) (s : String) :
    ((mkPayload items d).customer_name = d.fullName
      ∧ (mkPayload items d).customer_email = d.email
      ∧ (mkPayload items d).customer_phone = d.phone
      ∧ (mkPayload items d).pickup_address = d.address
      ∧ (mkPayload items d).special_instructions = d.notes)
    ∧ (∀ c, c ∈ (sanitizePhone s).data → phoneKeep c = true)
    ∧ '<' ∉ (sanitizeString s).data
    ∧ '>' ∉ (sanitizeString s).data
    ∧ sanitizeEmail s = jsToLower (jsTrim s)
    ∧ sanitizePhone " 555 " = " 555 " := by
  refine ⟨⟨rfl, rfl, rfl, rfl, rfl⟩, ?_, ?_, ?_, rfl, by decide⟩
  · intro c hc
    exact (List.mem_filter.1 hc).2
  · intro hc
    have h := (List.mem_filter.1 hc).2
    simp at h
  · intro hc
    have h := (List.mem_filter.1 hc).2
    simp at h

/-- **C9 witness**: the amended statement applied at concrete strings. -/
theorem c9_sanitization_witness :
    phoneKeep '5' = true
    ∧ '<' ∉ (sanitizeString "a<b>").data
    ∧ (mkPayload itemsABC draftRaw).customer_name = draftRaw.fullName :=
  ⟨(c9_sanitization itemsABC draftRaw " 5 ").2.1 '5' (by decide),
   (c9_sanitization itemsABC draftRaw "a<b>").2.2.1,
   (c9_sanitization itemsABC draftRaw "a<b>").1.1⟩

theorem stringMk_data (f : String) : String.mk f.data = f := rfl

/-- One parser step over `"` inside a quoted field. -/
theorem csvRun_quote_inQuoted (rows : List (List String)) (cur : List String)
    (acc rest : List Char) :
    csvRun ('"' :: rest) (.inQuoted rows cur acc)
      = csvRun rest (.afterQuote rows cur acc) := by
  simp [csvRun, csvStep]

/-- One parser step over an ordinary character inside a quoted field. -/
theorem csvRun_char_inQuoted (c : Char) (h : c ≠ '"')
    (rows : List (List String)) (cur : List String) (acc rest : List Char) :
    csvRun (c :: rest) (.inQuoted rows cur acc)
      = csvRun rest (.inQuoted rows cur (c :: acc)) := by
  simp [csvRun, csvStep, h]

/-- One parser step over `"` just after a quote: an escaped quote. -/
theorem csvRun_quote_afterQuote (rows : List (List String)) (cur : List String)
    (acc rest : List Char) :
    csvRun ('"' :: rest) (.afterQuote rows cur acc)
      = csvRun rest (.inQuoted rows cur ('"' :: acc)) := by
  simp [csvRun, csvStep]

/-- One parser step over `,` after a field's closing quote. -/
theorem csvRun_comma (rows : List (List String)) (cur : List String)
    (acc rest : List Char) :
    csvRun (',' :: rest) (.afterQuote rows cur acc)
      = csvRun rest (.expectField rows (String.mk acc.reverse :: cur)) := by
  simp [csvRun, csvStep]

/-- One parser step over `\n` after a field's closing quote. -/
theorem csvRun_nl (rows : List (List String)) (cur : List String)
    (acc rest : List Char) :
    csvRun ('\n' :: rest) (.afterQuote rows cur acc)
      = csvRun rest
          (.expectField ((String.mk acc.reverse :: cur).reverse :: rows) []) := by
  simp [csvRun, csvStep]

/-- Running the parser over an escaped field body followed by the closing
quote consumes exactly the body, accumulating the unescaped characters. -/
theorem csvRun_escChars (s : List Char) (rows : List (List String))
    (cur : List String) (acc rest : List Char) :
    csvRun (escChars s ++ '"' :: rest) (.inQuoted rows cur acc)
      = csvRun rest (.afterQuote rows cur (s.reverse ++ acc)) := by
  induction s generalizing acc with
  | nil =>
    rw [escChars, List.nil_append, csvRun_quote_inQuoted, List.reverse_nil,
      List.nil_append]
  | cons c t ih =>
    by_cases h : c = '"'
    · subst h
      rw [escChars, if_pos rfl, List.cons_append, List.cons_append,
        csvRun_quote_inQuoted, csvRun_quote_afterQuote, ih]
      simp
    · rw [escChars, if_neg h, List.cons_append, csvRun_char_inQuoted c h, ih]
      simp

/-- Parsing one serialized field from the field-start state ends just after
its closing quote with the field text accumulated. -/
theorem csvRun_serField (f : String) (rows : List (List String))
    (cur : List String) (rest : List Char) :
    csvRun (serField f ++ rest) (.expectField rows cur)
      = csvRun rest (.afterQuote rows cur f.data.reverse) := by
  have h : serField f ++ rest = '"' :: (escChars f.data ++ '"' :: rest) := by
    simp [serField]
  rw [h]
  have hstep : csvRun ('"' :: (escChars f.data ++ '"' :: rest))
      (.expectField rows cur)
      = csvRun (escChars f.data ++ '"' :: rest) (.inQuoted rows cur []) := by
    simp [csvRun, csvStep]
  rw [hstep, csvRun_escChars]
  simp

/-- Parsing a serialized row followed by a record separator closes the row:
all its fields are appended to the current record, which is pushed. -/
theorem csvRun_serRow_nl (fs : List String) (f : String)
    (rows : List (List String)) (cur : List String) (rest : List Char) :
    csvRun (serRow (f :: fs) ++ '\n' :: rest) (.expectField rows cur)
      = csvRun rest (.expectField ((cur.reverse ++ f :: fs) :: rows) []) := by
  induction fs generalizing f cur with
  | nil =>
    rw [serRow, csvRun_serField, csvRun_nl]
    simp [stringMk_data]
  | cons g t ih =>
    have h : serRow (f :: g :: t) ++ '\n' :: rest
        = serField f ++ ',' :: (serRow (g :: t) ++ '\n' :: rest) := by
      simp [serRow]
    rw [h, csvRun_serField, csvRun_comma, List.reverse_reverse, stringMk_data,
      ih]
    simp

/-- Parsing a serialized row at the end of the input yields all accumulated
records plus this one. -/
theorem csvRun_serRow_end (fs : List String) (f : String)
    (rows : List (List String)) (cur : List String) :
    csvRun (serRow (f :: fs)) (.expectField rows cur)
      = some (((cur.reverse ++ f :: fs) :: rows).reverse) := by
  induction fs generalizing f cur with
  | nil =>
    have h : serRow [f] = serField f ++ [] := by simp [serRow]
    rw [h, csvRun_serField]
    simp [csvRun, csvFinish, stringMk_data]
  | cons g t ih =>
    have h : serRow (f :: g :: t) = serField f ++ ',' :: serRow (g :: t) := by
      simp [serRow]
    rw [h, csvRun_serField, csvRun_comma, List.reverse_reverse, stringMk_data,
      ih]
    simp

/-- Parsing a whole serialized CSV text made of nonempty rows recovers the
rows exactly. -/
theorem csvRun_serCSV (rs : List (List String)) (rows : List (List String))
    (h : ∀ r ∈ rs, r ≠ []) (hne : rs ≠ []) :
    csvRun (serCSV rs) (.expectField rows []) = some (rows.reverse ++ rs) := by
  induction rs generalizing rows with
  | nil => cases hne rfl
  | cons r rest ih =>
    cases rest with
    | nil =>
      obtain ⟨f, fs, rfl⟩ : ∃ f fs, r = f :: fs := by
        cases r with
        | nil => exact absurd rfl (h [] (by simp))
        | cons f fs => exact ⟨f, fs, rfl⟩
      rw [serCSV, csvRun_serRow_end]
      simp
    | cons r2 rest2 =>
      obtain ⟨f, fs, rfl⟩ : ∃ f fs, r = f :: fs := by
        cases r with
        | nil => exact absurd rfl (h [] (by simp))
        | cons f fs => exact ⟨f, fs, rfl⟩
      have h2 : ∀ x ∈ r2 :: rest2, x ≠ [] :=
        fun x hx => h x (List.mem_cons_of_mem _ hx)
      rw [serCSV, csvRun_serRow_nl, ih _ h2 (by simp)]
      simp

/-- **C6.** The CSV export serializes the header row in the fixed column
order (id, customer name/email/phone, pickup date/time/address, status,
total cost, special instructions, internal notes, created timestamp) with
every field quoted and internal quotes doubled, and for any request whose
special instructions contain a double quote and a comma, parsing the
serialized CSV recovers the header row and the request's row exactly — in
particular the original special-instructions string at its column
(index 9). -/
theorem c6_csv_roundtrip (r : RequestRow) (s : String)
    (h1 : r.special_instructions = some s)
    (h2 : '"' ∈ s.data) (h3 : ',' ∈ s.data) :
    parseCSV (exportToCSV [r])
      = some [["ID", "Customer Name", "Customer Email", "Customer Phone",
               "Pickup Date", "Pickup Time", "Pickup Address", "Status",
               "Total Cost", "Special Instructions", "Internal Notes",
               "Created At"], requestFields r]
    ∧ (requestFields r).getD 9 "" = s := by
  have hs : s ≠ "" := fun h => by
    subst h
    exact absurd h2 (by decide)
  constructor
  · have hexp : (exportToCSV [r]).data
        = serCSV (CSV_HEADERS :: [r].map requestFields) := rfl
    rw [parseCSV, hexp, csvRun_serCSV]
    · simp [CSV_HEADERS]
    · intro x hx
      simp only [List.map_cons, List.map_nil, List.mem_cons,
        List.mem_singleton, List.not_mem_nil, or_false] at hx
      rcases hx with rfl | rfl
      · simp [CSV_HEADERS]
      · simp [requestFields]
    · simp
  · simp only [requestFields, List.getD_cons_succ, List.getD_cons_zero]
    simp [orFalsy, h1, hs]

/-- **C6 witness**: the round trip at a concrete request whose special
instructions contain both a double quote and a comma. -/
theorem c6_csv_roundtrip_witness :
    parseCSV (exportToCSV [requestQC])
      = some [["ID", "Customer Name", "Customer Email", "Customer Phone",
               "Pickup Date", "Pickup Time", "Pickup Address", "Status",
               "Total Cost", "Special Instructions", "Internal Notes",
               "Created At"], requestFields requestQC]
    ∧ (requestFields requestQC).getD 9 "" = "wash \"gently\", please" :=
  c6_csv_roundtrip requestQC "wash \"gently\", please" rfl (by decide) (by decide)

/-- Loop invariant of `validateForm`: the flag equals the incoming flag
conjoined with "no new error was recorded", errors are only appended, and
every new error key is one of the rule names. -/
theorem validateFormGo_spec (data : List (String × JSValue))
    (rules : List (String × Rule)) (v : Bool) (errs : List (String × String)) :
    ∃ fresh, (validateFormGo data rules v errs).errors = errs ++ fresh
      ∧ (validateFormGo data rules v errs).isValid = (v && fresh.isEmpty)
      ∧ ∀ p ∈ fresh, p.1 ∈ rules.map Prod.fst := by
  induction rules generalizing v errs with
  | nil => exact ⟨[], by simp [validateFormGo]⟩
  | cons nr rest ih =>
    obtain ⟨n, r⟩ := nr
    cases h : validateField (jsLookup data n) r with
    | some e =>
      obtain ⟨fresh, h1, h2, h3⟩ := ih false (errs ++ [(n, e)])
      refine ⟨(n, e) :: fresh, ?_, ?_, ?_⟩
      · simp only [validateFormGo, h, h1, List.append_assoc,
          List.singleton_append]
      · simp [validateFormGo, h, h2]
      · intro p hp
        rcases List.mem_cons.1 hp with rfl | hp'
        · simp
        · simpa using Or.inr (h3 p hp')
    | none =>
      obtain ⟨fresh, h1, h2, h3⟩ := ih v errs
      refine ⟨fresh, ?_, ?_, ?_⟩
      · simp only [validateFormGo, h, h1]
      · simp only [validateFormGo, h, h2]
      · intro p hp
        simpa using Or.inr (h3 p hp)

/-- **C10.** For every record and rule set, `validateForm` reports
`isValid` exactly when its error map is empty, and every key of the error
map is a field named in the rule set. -/
theorem c10_validate_form (data : List (String × JSValue))
    (rules : List (String × Rule)) :
    ((validateForm data rules).isValid = true
      ↔ (validateForm data rules).errors = [])
    ∧ ∀ p ∈ (validateForm data rules).errors, p.1 ∈ rules.map Prod.fst := by
  obtain ⟨fresh, h1, h2, h3⟩ := validateFormGo_spec data rules true []
  rw [validateForm] at *
  rw [List.nil_append] at h1
  constructor
  · rw [h1, h2]
    simp [List.isEmpty_iff]
  · intro p hp
    rw [h1] at hp
    exact h3 p hp

/-- **C10 witness**: the invariant applied to a one-rule set over a record
whose email fails the pattern, picking out the recorded error. -/
theorem c10_validate_form_witness :
    ((validateForm dataW ruleSetW).isValid = true
      ↔ (validateForm dataW ruleSetW).errors = [])
    ∧ ("customer_email", MSG_email).1 ∈ ruleSetW.map Prod.fst :=
  ⟨(c10_validate_form dataW ruleSetW).1,
   (c10_validate_form dataW ruleSetW).2 ("customer_email", MSG_email)
     (by decide)⟩

/-- **C7 counterexample.** In a west-of-UTC environment (offset −300
minutes, e.g. US Eastern DST), at local noon of 2026-10-11 the date
`"2026-10-11"` — today's own date, hence not before today date-wise — is
rejected by the pickup-date rule, because the rule compares the date's UTC
midnight against local midnight. -/
theorem c7_counterexample :
    civilFromDays (Int.fdiv (nowAnchor + (-300)) 1440) = (2026, 10, 11)
    ∧ pickupDateCustom nowAnchor (-300) "2026-10-11"
        = some "Pickup date must be today or in the future" := by
  decide

/-- **C7 (amended).** In a UTC environment the pickup-date rule accepts a
parseable date exactly when its day number lies between today's and that of
the same calendar date next year (date-only, time of day ignored); and
(Scenario B) the full customer-request schema rejects a draft whose pickup
date is yesterday with an error on `pickup_date` only. -/
theorem c7_pickup_date (now : ℤ) (s : String) (y m d : ℤ)
    (hp : parseISODate s = some (y, m, d)) :
    (pickupDateCustom now 0 s = none
      ↔ Int.fdiv now 1440 ≤ daysFromCivil y m d
        ∧ daysFromCivil y m d
            ≤ daysFromCivil ((civilFromDays (Int.fdiv now 1440)).1 + 1)
                (civilFromDays (Int.fdiv now 1440)).2.1
                (civilFromDays (Int.fdiv now 1440)).2.2)
    ∧ validateForm scenarioBData (CUSTOMER_REQUEST_SCHEMA nowAnchor 0)
        = ⟨false, [("pickup_date",
            "Pickup date must be today or in the future")]⟩ := by
  constructor
  · have hfm : Int.fmod now 1440 = Int.emod now 1440 :=
      Int.fmod_eq_emod now (by norm_num)
    have hfd : Int.fdiv now 1440 = Int.ediv now 1440 :=
      Int.fdiv_eq_ediv now (by norm_num)
    have hlink : 1440 * Int.ediv now 1440 + Int.emod now 1440 = now :=
      Int.ediv_add_emod now 1440
    have hlo : 0 ≤ Int.emod now 1440 := Int.emod_nonneg now (by norm_num)
    have hhi : Int.emod now 1440 < 1440 := Int.emod_lt_of_pos now (by norm_num)
    rw [pickupDateCustom, hp]
    simp only [add_zero, sub_zero, hfm, hfd]
    split_ifs with hA hB
    · simp only [reduceCtorEq, false_iff, not_and, not_le]
      intro _
      omega
    · simp only [reduceCtorEq, false_iff, not_and, not_le]
      intro h
      omega
    · simp only [true_iff]
      constructor <;> omega
  · decide

/-- **C7 witness**: the amended characterization applied at the concrete
UTC anchor instant and the parseable date 2026-12-25. -/
theorem c7_pickup_date_witness :
    (pickupDateCustom nowAnchor 0 "2026-12-25" = none
      ↔ Int.fdiv nowAnchor 1440 ≤ daysFromCivil 2026 12 25
        ∧ daysFromCivil 2026 12 25
            ≤ daysFromCivil ((civilFromDays (Int.fdiv nowAnchor 1440)).1 + 1)
                (civilFromDays (Int.fdiv nowAnchor 1440)).2.1
                (civilFromDays (Int.fdiv nowAnchor 1440)).2.2)
    ∧ validateForm scenarioBData (CUSTOMER_REQUEST_SCHEMA nowAnchor 0)
        = ⟨false, [("pickup_date",
            "Pickup date must be today or in the future")]⟩ :=
  c7_pickup_date nowAnchor "2026-12-25" 2026 12 25 (by decide)

end RSA
